import Mathlib

/-!
Verification of the `youtube_upload` support library (`lib.py`).

The Python source is embedded shallowly: pure string processing becomes
Lean functions on `String`/`List Char`, the retry loop becomes a
fuel-indexed interpreter producing an explicit event trace, the scoped
SIGINT context manager becomes a state-passing function, and file access
is abstracted as a function from file names to either lines or an open
error.  Machine-level concerns (actual signals, wall-clock sleeping,
stdout) are represented by explicit events / state values.
-/

namespace YoutubeUpload

/-! Section: Video-id validation (`check_valid_id`, lib.py lines 168-172)

Python:
```
def check_valid_id(vid):
    vid_chars = set(al + dig + "".join(["-", "_"]))
    s = set(list(vid))
    # checks if all chars of vid are allowed
    return len(vid) == 11 and s & vid_chars == s
```
where `al = string.ascii_letters` and `dig = string.digits`.
-/

/-- Python's `string.ascii_letters`. -/
def al : String := "abcdefghijklmnopqrstuvwxyzABCDEFGHIJKLMNOPQRSTUVWXYZ"

/-- Python's `string.digits`. -/
def dig : String := "0123456789"

/-- The set `vid_chars = set(al + dig + "".join(["-", "_"]))`. -/
def vid_chars : Finset Char := (al ++ dig ++ "-_").toList.toFinset

/-- Validation `check_valid_id(vid)`: `len(vid) == 11 and s & vid_chars == s`
where `s = set(list(vid))`. -/
def check_valid_id (vid : String) : Bool :=
  let s : Finset Char := vid.toList.toFinset
  vid.length == 11 && decide (s ∩ vid_chars = s)

/-- The alphabet named by the spec: A-Z, a-z, 0-9, '-', '_'. -/
def allowedChar (c : Char) : Prop :=
  ('A' ≤ c ∧ c ≤ 'Z') ∨ ('a' ≤ c ∧ c ≤ 'z') ∨ ('0' ≤ c ∧ c ≤ '9') ∨
    c = '-' ∨ c = '_'

instance (c : Char) : Decidable (allowedChar c) := by
  unfold allowedChar; infer_instance

lemma toNat_le_toNat_of_le {a b : Char} (h : a ≤ b) : a.toNat ≤ b.toNat := by
  rw [Char.le_def, UInt32.le_def, BitVec.le_def] at h
  exact h

lemma char_eq_ofNat_toNat (c : Char) : c = Char.ofNat c.toNat :=
  (Char.ofNat_toNat c).symm

lemma mem_vid_chars_iff (c : Char) : c ∈ vid_chars ↔ allowedChar c := by
  have hlist : (al ++ dig ++ "-_").toList =
      ['a', 'b', 'c', 'd', 'e', 'f', 'g', 'h', 'i', 'j', 'k', 'l', 'm',
       'n', 'o', 'p', 'q', 'r', 's', 't', 'u', 'v', 'w', 'x', 'y', 'z',
       'A', 'B', 'C', 'D', 'E', 'F', 'G', 'H', 'I', 'J', 'K', 'L', 'M',
       'N', 'O', 'P', 'Q', 'R', 'S', 'T', 'U', 'V', 'W', 'X', 'Y', 'Z',
       '0', '1', '2', '3', '4', '5', '6', '7', '8', '9', '-', '_'] := by
    decide
  rw [vid_chars, List.mem_toFinset, hlist]
  constructor
  · intro h
    fin_cases h <;> decide
  · intro h
    rcases h with ⟨h1, h2⟩ | ⟨h1, h2⟩ | ⟨h1, h2⟩ | h | h
    · obtain ⟨n, rfl, hn1, hn2⟩ :
          ∃ n, c = Char.ofNat n ∧ 65 ≤ n ∧ n ≤ 90 :=
        ⟨c.toNat, char_eq_ofNat_toNat c,
          toNat_le_toNat_of_le h1, toNat_le_toNat_of_le h2⟩
      interval_cases n <;> decide
    · obtain ⟨n, rfl, hn1, hn2⟩ :
          ∃ n, c = Char.ofNat n ∧ 97 ≤ n ∧ n ≤ 122 :=
        ⟨c.toNat, char_eq_ofNat_toNat c,
          toNat_le_toNat_of_le h1, toNat_le_toNat_of_le h2⟩
      interval_cases n <;> decide
    · obtain ⟨n, rfl, hn1, hn2⟩ :
          ∃ n, c = Char.ofNat n ∧ 48 ≤ n ∧ n ≤ 57 :=
        ⟨c.toNat, char_eq_ofNat_toNat c,
          toNat_le_toNat_of_le h1, toNat_le_toNat_of_le h2⟩
      interval_cases n <;> decide
    · subst h; decide
    · subst h; decide

/-- C1: `check_valid_id(s)` is true iff `len(s) == 11` and every character of
`s` lies in the alphabet A-Z, a-z, 0-9, '-', '_'.  In particular it rejects
length-11 strings containing a disallowed character and rejects
correctly-charset strings of any other length. -/
theorem check_valid_id_iff (s : String) :
    check_valid_id s = true ↔ s.length = 11 ∧ ∀ c ∈ s.toList, allowedChar c := by
  simp only [check_valid_id, Bool.and_eq_true, beq_iff_eq, decide_eq_true_eq]
  constructor
  · rintro ⟨h1, h2⟩
    refine ⟨h1, fun c hc => ?_⟩
    have hmem : c ∈ s.toList.toFinset ∩ vid_chars := by
      rw [h2]; exact List.mem_toFinset.mpr hc
    exact (mem_vid_chars_iff c).mp (Finset.mem_inter.mp hmem).2
  · rintro ⟨h1, h2⟩
    refine ⟨h1, ?_⟩
    rw [Finset.inter_eq_left]
    intro c hc
    exact (mem_vid_chars_iff c).mpr (h2 c (List.mem_toFinset.mp hc))

/-- Witness for C1 at the concrete id "dQw4w9WgXcQ". -/
theorem check_valid_id_iff_witness : check_valid_id ("dQw4w9WgXcQ") = true :=
  (check_valid_id_iff ("dQw4w9WgXcQ")).mpr ⟨by decide, by decide⟩

/-! Section: CLI token splitting (`extract_vid_from_cli`, lib.py lines 163-166)

Python:
```
def extract_vid_from_cli(vid, delimiters=[',', ', '], extra_delim=[]):
    ids = list()
    ids.extend(re.split('|'.join(delimiters + extra_delim), vid))
    return ids
```
`re.split` is modelled for patterns that are an alternation of literal
strings (which is what `'|'.join` produces for the delimiter lists in use,
none of which contain regex metacharacters).  Python's regex engine tries
the alternatives in their pattern order at each position and commits to the
first one that matches, scanning left to right; an alternative matching the
empty string is treated as no match (none of the delimiters in use is
empty). -/

/-- At the current position, the first alternative (in pattern order) that
matches, i.e. that is a nonempty prefix of the remaining input. -/
def findAlt (alts : List (List Char)) (rem : List Char) : Option (List Char) :=
  alts.find? (fun a => !a.isEmpty && a.isPrefixOf rem)

/-- Left-to-right splitting scan.  `fuel` only serves to make the recursion
structural; every step consumes at least one input character, so any
`fuel ≥ s.length` computes the scan exactly. -/
def reSplitAux (alts : List (List Char)) : Nat → List Char → List Char →
    List (List Char)
  | _, [], cur => [cur.reverse]
  | 0, s, cur => [cur.reverse ++ s]
  | fuel + 1, c :: rest, cur =>
    match findAlt alts (c :: rest) with
    | some a => cur.reverse :: reSplitAux alts fuel ((c :: rest).drop a.length) []
    | none => reSplitAux alts fuel rest (c :: cur)

/-- Model of `re.split(pattern, s)` for a pattern that is an alternation of
the literal strings `alts` (in this order). -/
def reSplit (alts : List String) (s : String) : List String :=
  (reSplitAux (alts.map String.toList) s.toList.length s.toList []).map
    List.asString

/-- Model of `extract_vid_from_cli(vid, delimiters, extra_delim)`. -/
def extract_vid_from_cli (vid : String)
    (delimiters : List String := [",", ", "])
    (extra_delim : List String := []) : List String :=
  reSplit (delimiters ++ extra_delim) vid

/-- C2 (evaluation at the failing input): with the default delimiters the
pattern is `,|, ` and regex alternation commits to the first alternative,
so the single `,` always wins and the `, ` delimiter never matches;
`"abc,def, ghi"` therefore splits into `["abc", "def", " ghi"]` — the third
token keeps its leading space — and not into `["abc", "def", "ghi"]` as the
claim states. -/
theorem extract_vid_from_cli_eval :
    extract_vid_from_cli ("abc,def, ghi") [",", ", "] [] =
      ["abc", "def", " ghi"] ∧
    extract_vid_from_cli ("abc,def, ghi") [",", ", "] [] ≠
      ["abc", "def", "ghi"] := by
  constructor
  · decide
  · decide

/-! Section: URL parsing collaborators (`urllib.parse.urlparse` / `parse_qs`)

`filter_vid` only consults the `scheme` and `query` components of
`urlparse` and the `v` entry of `parse_qs`, so only those are modelled,
following CPython 3's `urllib.parse`:

* `urlsplit` first removes the unsafe bytes tab, CR and LF; a scheme is
  recognized iff the input has a `:` at some position `i > 0`, its first
  character is an ASCII letter, and every character before the `:` is in
  `scheme_chars` (ASCII letters, digits, `+`, `-`, `.`); the scheme is
  lower-cased; the fragment is everything after the first `#`, and the
  query is everything after the first `?` of what remains.
* `parse_qs` (defaults: blank values dropped, non-strict, separator `&`)
  splits the query on `&`, skips empty tokens and tokens without `=`,
  skips pairs with an empty value, replaces `+` by space and
  percent-decodes name and value.  Percent-decoding is modelled per byte
  (each valid `%XX` becomes the character of code `XX`); CPython would
  additionally UTF-8-decode consecutive high bytes, which no ASCII video
  id ever triggers. -/

/-- The `scheme_chars` constant of `urllib.parse`. -/
def scheme_chars : List Char := (al ++ dig ++ "+-.").toList

/-- ASCII-letter test used for the first character of a scheme
(`url[0].isascii() and url[0].isalpha()`). -/
def isAsciiAlpha (c : Char) : Bool :=
  ('A' ≤ c && c ≤ 'Z') || ('a' ≤ c && c ≤ 'z')

/-- ASCII lower-casing, as `str.lower` acts on scheme characters. -/
def pyLower (l : List Char) : List Char := l.map Char.toLower

/-- Removal of `_UNSAFE_URL_BYTES_TO_REMOVE` (tab, CR, LF). -/
def stripUnsafe (l : List Char) : List Char :=
  l.filter (fun c => !(c = '\t' || c = '\r' || c = '\n'))

/-- The `scheme` and `query` components of `urlsplit`. -/
structure UrlParts where
  scheme : String
  query : String
  deriving DecidableEq

/-- Split off a scheme: position of the first `:`, provided the prefix
before it is a valid scheme token. -/
def pySchemeSplit (l : List Char) : String × List Char :=
  match l.findIdx? (· = ':') with
  | none => ("", l)
  | some i =>
    if 0 < i ∧ (l.head?.elim false isAsciiAlpha)
        ∧ (l.take i).all (· ∈ scheme_chars) then
      ((pyLower (l.take i)).asString, l.drop (i + 1))
    else
      ("", l)

/-- Model of `urlsplit(url)`, restricted to the `scheme` and `query`
components. -/
def pyUrlsplit (url : String) : UrlParts :=
  let l := stripUnsafe url.toList
  let (scheme, rest) := pySchemeSplit l
  let beforeFrag := rest.takeWhile (· ≠ '#')
  let query := (beforeFrag.dropWhile (· ≠ '?')).drop 1
  { scheme := scheme, query := query.asString }

/-- Numeric value of a hex digit. -/
def hexVal (c : Char) : Nat :=
  if c.isDigit then c.toNat - 48
  else if 'a' ≤ c ∧ c ≤ 'f' then c.toNat - 87
  else c.toNat - 55

/-- Hex-digit test of `urllib.parse.unquote`. -/
def isHexDig (c : Char) : Bool :=
  c.isDigit || ('a' ≤ c && c ≤ 'f') || ('A' ≤ c && c ≤ 'F')

/-- Percent-decoding, one byte per valid `%XX` escape; malformed escapes
stay literal. -/
def pctDecode : List Char → List Char
  | [] => []
  | '%' :: a :: b :: rest =>
    if isHexDig a && isHexDig b then
      Char.ofNat (16 * hexVal a + hexVal b) :: pctDecode rest
    else
      '%' :: pctDecode (a :: b :: rest)
  | c :: rest => c :: pctDecode rest

/-- Decoding `unquote(s.replace('+', ' '))` as applied by `parse_qsl`. -/
def unquotePlus (s : String) : String :=
  (pctDecode ((s.toList).map (fun c => if c = '+' then ' ' else c))).asString

/-- Python `str.split(sep)` for a single-character separator (`"".split`
gives `[""]`, as in Python). -/
def splitOnChar (sep : Char) : List Char → List (List Char)
  | [] => [[]]
  | c :: rest =>
    match splitOnChar sep rest with
    | [] => [[]]
    | t :: ts => if c = sep then [] :: t :: ts else (c :: t) :: ts

/-- Model of `parse_qsl(qs)` with default arguments. -/
def parse_qsl (qs : String) : List (String × String) :=
  (splitOnChar '&' qs.toList).filterMap (fun nv =>
    if nv = [] then none
    else
      let name := nv.takeWhile (· ≠ '=')
      let rest := nv.dropWhile (· ≠ '=')
      match rest with
      | [] => none            -- no '=': skipped (non-strict parsing)
      | _ :: value =>
        if value.isEmpty then none   -- blank value: dropped
        else some (unquotePlus name.asString, unquotePlus value.asString))

/-- The list `parse_qs(qs)[key]` (the dict groups values of equal names in
order of appearance; absence of the key is the empty list). -/
def parse_qs_values (qs : String) (key : String) : List String :=
  (parse_qsl qs).filterMap (fun nv => if nv.1 = key then some nv.2 else none)

/-! Section: Line filtering (`filter_vid` / `extract_vid_from_file` loop,
lib.py lines 135-161)

Python:
```
def filter_vid(line):
    p = urlparse(line)
    if p.scheme:
        v = parse_qs(p.query)
        if not 'v' in v:
            return False
        vid = v['v'][0]
    else:
        vid = line
    return vid if check_valid_id(vid) else None
```
The three possible Python results `False`, `None` and a string are kept
apart, since the caller's `if not v` test also rejects an empty string. -/

inductive FilterResult where
  | noParam                -- Python `False`: URL without a `v` parameter
  | invalid                -- Python `None`: candidate failed validation
  | vid (s : String)       -- the validated candidate string
  deriving DecidableEq

/-- Model of `filter_vid(line)`. -/
def filter_vid (line : String) : FilterResult :=
  let p := pyUrlsplit line
  if p.scheme ≠ "" then
    match parse_qs_values p.query ("v") with
    | [] => .noParam
    | v0 :: _ => if check_valid_id v0 then .vid v0 else .invalid
  else
    if check_valid_id line then .vid line else .invalid

/-- Python truthiness of a `filter_vid` result (`if not v: continue`). -/
def FilterResult.truthy : FilterResult → Bool
  | .vid s => !(s = "")
  | _ => false

/-- The collection loop of `extract_vid_from_file` over the (already
stripped) lines:
```
for l in lines:
    v = filter_vid(l)
    if not v:
        continue
    collection.append(v)
```
-/
def collect_vids : List String → List String
  | [] => []
  | l :: ls =>
    match filter_vid l with
    | .vid v => if (FilterResult.vid v).truthy then v :: collect_vids ls
                else collect_vids ls
    | _ => collect_vids ls

lemma check_valid_ne_empty {v : String} (h : check_valid_id v = true) :
    v ≠ "" := by
  intro he
  subst he
  have : check_valid_id ("") = false := by decide
  rw [this] at h
  exact Bool.false_ne_true h

/-- The candidate a line contributes according to the claim: for a line
with a recognized scheme the first `v` query value (none if `v` is
absent), otherwise the whole line. -/
def claimCandidate (l : String) : Option String :=
  if (pyUrlsplit l).scheme ≠ "" then (parse_qs_values (pyUrlsplit l).query ("v")).head?
  else some l

lemma filter_vid_claim (l : String) :
    (match filter_vid l with
      | .vid v => if (FilterResult.vid v).truthy then some v else none
      | _ => none) =
    (claimCandidate l).bind
      (fun cand => if check_valid_id cand then some cand else none) := by
  unfold filter_vid claimCandidate
  by_cases hs : (pyUrlsplit l).scheme ≠ ""
  · rw [if_pos hs, if_pos hs]
    cases hq : parse_qs_values (pyUrlsplit l).query ("v") with
    | nil => simp
    | cons v0 vs =>
      by_cases hv : check_valid_id v0 = true
      · simp [hv, FilterResult.truthy, check_valid_ne_empty hv]
      · simp [hv]
  · rw [if_neg hs, if_neg hs]
    by_cases hv : check_valid_id l = true
    · simp [hv, FilterResult.truthy, check_valid_ne_empty hv]
    · simp [hv]

/-- C3: the collection loop yields, in input line order, exactly the
candidates that pass `check_valid_id`, where a line with a recognized URL
scheme contributes the first value of its `v` query parameter (the line is
omitted when `v` is absent) and a line without a scheme contributes the
whole line; lines whose candidate fails validation are dropped. -/
theorem collect_vids_spec (lines : List String) :
    collect_vids lines = lines.filterMap (fun l =>
      (claimCandidate l).bind
        (fun cand => if check_valid_id cand then some cand else none)) := by
  induction lines with
  | nil => rfl
  | cons l ls ih =>
    rw [List.filterMap_cons, ← filter_vid_claim l]
    cases hF : filter_vid l with
    | noParam => simp [collect_vids, hF, ih]
    | invalid => simp [collect_vids, hF, ih]
    | vid v =>
      by_cases ht : (FilterResult.vid v).truthy = true
      · simp [collect_vids, hF, ih, ht]
      · simp [collect_vids, hF, ih, ht]

/-! Section: Retry wrapper (`retriable_exceptions`, lib.py lines 107-133)

Python:
```
def retriable_exceptions(fun, retriable_exceptions, max_retries=None):
    retry = 0
    while 1:
        try:
            return fun()
        except tuple(retriable_exceptions) as exc:
            retry += 1
            if type(exc) not in retriable_exceptions:
                raise exc
            elif max_retries is not None and retry > max_retries:
                debug("[Retryable errors] Retry limit reached")
                raise exc
            else:
                ...
                seconds = random.uniform(0, 2**retry)
                ...
                debug(message)
                time.sleep(seconds)
```
Modelling choices:
* an exception is represented by its runtime kind, a value of a type `K`
  with decidable equality; `isSub a b` states that kind `a` is a
  (reflexive) subclass of kind `b`, so `except tuple(set)` catches `exc`
  iff some member `c` of the set has `isSub (kind exc) c`, while the inner
  `type(exc) not in retriable_exceptions` is literal membership;
* each iteration calls `fun()` once and every previous iteration ended in
  a caught exception that incremented `retry`, so the operation is a
  function `op` from the entry value of `retry` (= the number of previous
  calls) to `Except K α`;
* `random.uniform(0, 2**retry)` is an oracle `rand`; the draw of
  iteration `retry` is `rand retry`, and the uniform contract
  `0 ≤ rand n ≤ 2^n` is a hypothesis where a claim needs it;
* the side effects of an iteration are recorded as trace events: `called`
  for the invocation of `fun()`, `slept r d` for the retry log line plus
  `time.sleep` of iteration `r`, `limitLogged` for the
  "Retry limit reached" log line;
* the `while 1` loop is run on explicit fuel; exhausted fuel (`fuelOut`)
  represents a run still looping after `fuel` iterations. -/

inductive RunResult (α K : Type) where
  | ok (a : α)
  | raised (k : K)
  | fuelOut
  deriving DecidableEq

inductive REvent (K : Type) where
  | called
  | slept (retryNum : Nat) (dur : ℚ)
  | limitLogged
  deriving DecidableEq

def REvent.isSleep {K : Type} : REvent K → Bool
  | .slept _ _ => true
  | _ => false

def REvent.isCall {K : Type} : REvent K → Bool
  | .called => true
  | _ => false

/-- Catching by `except tuple(kinds)`: `isinstance`-style, so subclasses of
a member are caught too. -/
def pyCaught {K : Type} (isSub : K → K → Bool) (k : K) (kinds : List K) :
    Bool :=
  kinds.any (fun c => isSub k c)

/-- The test `max_retries is not None and retry > max_retries`. -/
def budgetExceeded (maxRetries : Option Nat) (retry : Nat) : Bool :=
  match maxRetries with
  | some m => retry > m
  | none => false

/-- The retry loop, from the state `retry`; the top-level call is
`retry = 0`. -/
def retriable_exceptions {K α : Type} [DecidableEq K] (isSub : K → K → Bool)
    (kinds : List K) (maxRetries : Option Nat) (op : Nat → Except K α)
    (rand : Nat → ℚ) : Nat → Nat → RunResult α K × List (REvent K)
  | 0, _ => (.fuelOut, [])
  | fuel + 1, retry =>
    match op retry with
    | .ok a => (.ok a, [.called])
    | .error k =>
      if pyCaught isSub k kinds then
        let r := retry + 1
        if ¬ k ∈ kinds then (.raised k, [.called])
        else if budgetExceeded maxRetries r then
          (.raised k, [.called, .limitLogged])
        else
          let rest := retriable_exceptions isSub kinds maxRetries op rand fuel r
          (rest.1, .called :: .slept r (rand r) :: rest.2)
      else (.raised k, [.called])

lemma pyCaught_of_mem {K : Type} (isSub : K → K → Bool) (kinds : List K)
    (k : K) (hrefl : ∀ a, isSub a a = true) (hmem : k ∈ kinds) :
    pyCaught isSub k kinds = true :=
  List.any_eq_true.mpr ⟨k, hmem, hrefl k⟩

/-- C4: whatever the retriable set, the budget and the subclass relation,
an operation whose first raised error kind is not literally a member of the
set — including a strict subclass of a member — propagates that error on
the first occurrence: one call, no sleep, no retry. -/
theorem retriable_exact_kind_mismatch {K α : Type} [DecidableEq K]
    (isSub : K → K → Bool) (kinds : List K) (maxRetries : Option Nat)
    (op : Nat → Except K α) (rand : Nat → ℚ) (fuel : Nat) (k : K)
    (hfuel : 0 < fuel) (hop : op 0 = .error k) (hmem : k ∉ kinds) :
    retriable_exceptions isSub kinds maxRetries op rand fuel 0 =
      (.raised k, [.called]) := by
  obtain ⟨f, rfl⟩ : ∃ f, fuel = f + 1 := ⟨fuel - 1, by omega⟩
  by_cases hc : pyCaught isSub k kinds
  · simp [retriable_exceptions, hop, hc, hmem]
  · simp [retriable_exceptions, hop, hc]

/-- A subclass lattice on two kinds: kind 1 is a strict subclass of
kind 0; the relation is reflexive, as `isinstance` is. -/
def isSubW : Nat → Nat → Bool := fun a b => a == b || (a == 1 && b == 0)

def randW : Nat → ℚ := fun _ => 0

def opW : Nat → Except Nat Unit := fun _ => .error 1

/-- Witness for C4: the raised kind 1 is a strict subclass of the sole
retriable kind 0 (so the `except` clause catches it) but not a member. -/
theorem retriable_exact_kind_mismatch_witness :
    retriable_exceptions isSubW [0] (some 5) opW randW 1 0 =
      (.raised 1, [.called]) :=
  retriable_exact_kind_mismatch isSubW [0] (some 5) opW randW 1 1
    (by decide) rfl (by decide)

/-- C5: with `max_retries = 0` and an operation that always raises a
member kind, exactly one invocation happens, the exhaustion is logged, the
error propagates, and no backoff sleep occurs. -/
theorem retriable_zero_budget {K α : Type} [DecidableEq K]
    (isSub : K → K → Bool) (kinds : List K) (op : Nat → Except K α)
    (rand : Nat → ℚ) (fuel : Nat) (k : K)
    (hfuel : 0 < fuel) (hrefl : ∀ a, isSub a a = true)
    (hop : op 0 = .error k) (hmem : k ∈ kinds) :
    retriable_exceptions isSub kinds (some 0) op rand fuel 0 =
      (.raised k, [.called, .limitLogged]) := by
  obtain ⟨f, rfl⟩ : ∃ f, fuel = f + 1 := ⟨fuel - 1, by omega⟩
  simp [retriable_exceptions, hop, pyCaught_of_mem isSub kinds k hrefl hmem,
    hmem, budgetExceeded]

def opW5 : Nat → Except Nat Unit := fun _ => .error 0

/-- Witness for C5. -/
theorem retriable_zero_budget_witness :
    retriable_exceptions isSubW [0] (some 0) opW5 randW 1 0 =
      (.raised 0, [.called, .limitLogged]) :=
  retriable_zero_budget isSubW [0] opW5 randW 1 0 (by decide)
    (by intro a; simp [isSubW]) rfl (by decide)

/-- C6: an operation whose first raised error kind is outside the
retriable set (not caught by the `except` clause at all) propagates
immediately: one call, zero sleeps, zero retries. -/
theorem retriable_noncaught {K α : Type} [DecidableEq K]
    (isSub : K → K → Bool) (kinds : List K) (maxRetries : Option Nat)
    (op : Nat → Except K α) (rand : Nat → ℚ) (fuel : Nat) (k : K)
    (hfuel : 0 < fuel) (hop : op 0 = .error k)
    (hc : pyCaught isSub k kinds = false) :
    retriable_exceptions isSub kinds maxRetries op rand fuel 0 =
      (.raised k, [.called]) := by
  obtain ⟨f, rfl⟩ : ∃ f, fuel = f + 1 := ⟨fuel - 1, by omega⟩
  simp [retriable_exceptions, hop, hc]

def opW6 : Nat → Except Nat Unit := fun _ => .error 7

/-- Witness for C6. -/
theorem retriable_noncaught_witness :
    retriable_exceptions isSubW [0] none opW6 randW 1 0 =
      (.raised 7, [.called]) :=
  retriable_noncaught isSubW [0] none opW6 randW 1 7 (by decide) rfl
    (by decide)

/-- C7: with `max_retries = 3` and an operation failing with a member kind
on its first two calls and succeeding on the third, the run returns the
third call's result after exactly two backoff sleeps, whose uniformly
drawn durations are bounded by `2^1` and `2^2` respectively. -/
theorem retriable_two_failures_then_success {K α : Type} [DecidableEq K]
    (isSub : K → K → Bool) (kinds : List K) (op : Nat → Except K α)
    (rand : Nat → ℚ) (fuel : Nat) (v : α) (k0 k1 : K)
    (hfuel : 3 ≤ fuel) (hrefl : ∀ a, isSub a a = true)
    (hop0 : op 0 = .error k0) (hop1 : op 1 = .error k1)
    (hop2 : op 2 = .ok v) (hmem0 : k0 ∈ kinds) (hmem1 : k1 ∈ kinds)
    (hrand : ∀ n, 0 ≤ rand n ∧ rand n ≤ 2 ^ n) :
    retriable_exceptions isSub kinds (some 3) op rand fuel 0 =
      (.ok v,
        [.called, .slept 1 (rand 1), .called, .slept 2 (rand 2), .called]) ∧
    0 ≤ rand 1 ∧ rand 1 ≤ 2 ^ 1 ∧ 0 ≤ rand 2 ∧ rand 2 ≤ 2 ^ 2 := by
  obtain ⟨f, rfl⟩ : ∃ f, fuel = f + 1 + 1 + 1 := ⟨fuel - 3, by omega⟩
  refine ⟨?_, (hrand 1).1, (hrand 1).2, (hrand 2).1, (hrand 2).2⟩
  simp [retriable_exceptions, hop0, hop1, hop2,
    pyCaught_of_mem isSub kinds k0 hrefl hmem0,
    pyCaught_of_mem isSub kinds k1 hrefl hmem1, hmem0, hmem1,
    budgetExceeded]

def opW7 : Nat → Except Nat Nat := fun n => if n < 2 then .error 0 else .ok 42

/-- Witness for C7. -/
theorem retriable_two_failures_then_success_witness :
    retriable_exceptions isSubW [0] (some 3) opW7 randW 3 0 =
      (.ok 42,
        [.called, .slept 1 (randW 1), .called, .slept 2 (randW 2),
          .called]) ∧
    0 ≤ randW 1 ∧ randW 1 ≤ 2 ^ 1 ∧ 0 ≤ randW 2 ∧ randW 2 ≤ 2 ^ 2 :=
  retriable_two_failures_then_success isSubW [0] opW7 randW 3 42 0 0
    (by decide) (by intro a; simp [isSubW]) rfl rfl rfl (by decide)
    (by decide) (by intro n; refine ⟨le_refl 0, ?_⟩; positivity)

/-- C8: with `max_retries = None` and an operation that keeps raising
member kinds, no amount of fuel ever reaches the budget-exhaustion branch:
the run neither raises nor logs the retry limit, and every one of the
`fuel` iterations performs one call and one backoff sleep before looping
again. -/
theorem retriable_unbounded_never_exhausts {K α : Type} [DecidableEq K]
    (isSub : K → K → Bool) (kinds : List K) (op : Nat → Except K α)
    (rand : Nat → ℚ)
    (hrefl : ∀ a, isSub a a = true)
    (hop : ∀ n, ∃ k, op n = .error k ∧ k ∈ kinds)
    (fuel retry : Nat) :
    (retriable_exceptions isSub kinds none op rand fuel retry).1 = .fuelOut ∧
    .limitLogged ∉ (retriable_exceptions isSub kinds none op rand fuel retry).2 ∧
    ((retriable_exceptions isSub kinds none op rand fuel retry).2.countP
      REvent.isSleep) = fuel ∧
    ((retriable_exceptions isSub kinds none op rand fuel retry).2.countP
      REvent.isCall) = fuel := by
  induction fuel generalizing retry with
  | zero => simp [retriable_exceptions]
  | succ f ih =>
    obtain ⟨k, hk, hmem⟩ := hop retry
    obtain ⟨ih1, ih2, ih3, ih4⟩ := ih (retry + 1)
    simp [retriable_exceptions, hk,
      pyCaught_of_mem isSub kinds k hrefl hmem, hmem, budgetExceeded,
      ih1, ih2, ih3, ih4, List.countP_cons, REvent.isSleep, REvent.isCall]

/-- Witness for C8 at fuel 2. -/
theorem retriable_unbounded_never_exhausts_witness :
    (retriable_exceptions isSubW [0] none opW5 randW 2 0).1 = .fuelOut ∧
    .limitLogged ∉ (retriable_exceptions isSubW [0] none opW5 randW 2 0).2 ∧
    ((retriable_exceptions isSubW [0] none opW5 randW 2 0).2.countP
      REvent.isSleep) = 2 ∧
    ((retriable_exceptions isSubW [0] none opW5 randW 2 0).2.countP
      REvent.isCall) = 2 :=
  retriable_unbounded_never_exhausts isSubW [0] opW5 randW
    (by intro a; simp [isSubW]) (by intro n; exact ⟨0, rfl, by decide⟩) 2 0

/-! Section: Scoped SIGINT handler (`default_sigint`, lib.py lines 22-29)

Python:
```
@contextmanager
def default_sigint():
    original_sigint_handler = signal.getsignal(signal.SIGINT)
    signal.signal(signal.SIGINT, signal.SIG_DFL)
    try:
        yield
    finally:
        signal.signal(signal.SIGINT, original_sigint_handler)
```
The process's SIGINT handler slot is modelled as an explicit state value.
The body of the `with` block is a state-passing function that receives the
handler installed on entry, may itself change the handler, and terminates
in one of three ways: normal completion, an exception, or cancellation
(the generator being closed / thrown into); the `finally` clause runs on
each of these paths. -/

/-- A value of the SIGINT handler slot.  `dfl` is `signal.SIG_DFL`, `ign`
is `signal.SIG_IGN`, `custom n` an arbitrary Python-level handler. -/
inductive Handler where
  | dfl
  | ign
  | custom (n : Nat)
  deriving DecidableEq

/-- How the body of the `with` block terminated. -/
inductive BodyOutcome (α : Type) where
  | normal (a : α)
  | raised (msg : String)
  | cancelled
  deriving DecidableEq

/-- Execution of `with default_sigint(): body` from handler state `h0`. -/
def default_sigint {α : Type} (body : Handler → BodyOutcome α × Handler)
    (h0 : Handler) : BodyOutcome α × Handler :=
  let original_sigint_handler := h0
  let afterEntry := Handler.dfl          -- signal.signal(SIGINT, SIG_DFL)
  let (r, _hBody) := body afterEntry
  (r, original_sigint_handler)           -- finally: restore, on every path

/-- C9: the scoped SIGINT context installs the default handler on entry
(the body runs against `Handler.dfl`) and restores the previously
installed handler on every exit path — the body's outcome, be it normal,
an exception or cancellation, is passed through unchanged while the final
handler state equals the initial one, so no handler change persists. -/
theorem default_sigint_scoped {α : Type}
    (body : Handler → BodyOutcome α × Handler) (h0 : Handler) :
    (default_sigint body h0).2 = h0 ∧
    (default_sigint body h0).1 = (body Handler.dfl).1 := by
  constructor
  · rfl
  · rfl

/-! Section: File extraction wrapper (`extract_vid_from_file`, lib.py 135-150)

Python:
```
def extract_vid_from_file(f):
    collection = list()
    try:
        c = open(f)
        lines = [x.rstrip() for x in c.readlines()]
        c.close()
    except IOError:
        print("Could not open \"%s\"; skipping" % f, file=sys.stderr)
        return
    for l in lines:
        ...collection.append(filter_vid(l))...
    return collection
```
The file system is a function from file names to either the raw lines of
a readable file or an open failure, which is either an `IOError` or some
other exception kind.  The bare `return` in the handler returns `None`;
the warning print is recorded as a boolean. -/

inductive OpenErr where
  | ioError
  | otherErr
  deriving DecidableEq

/-- A Python call either returns a value or lets an exception escape. -/
inductive PyOutcome (α ε : Type) where
  | ret (a : α)
  | exc (e : ε)
  deriving DecidableEq

/-- Python `str.rstrip()`: strip trailing whitespace
(space, `\t`, `\n`, `\r`, `\x0b`, `\f`). -/
def rstrip (s : String) : String :=
  (s.toList.reverse.dropWhile (fun c =>
    c = ' ' ∨ c = '\t' ∨ c = '\n' ∨ c = '\r' ∨
      c = Char.ofNat 11 ∨ c = Char.ofNat 12)).reverse.asString

/-- Model of `extract_vid_from_file(f)` against the file system `fs`; the
second component records whether the skip warning was printed. -/
def extract_vid_from_file (fs : String → Except OpenErr (List String))
    (f : String) : PyOutcome (Option (List String)) OpenErr × Bool :=
  match fs f with
  | .error .ioError => (.ret none, true)
  | .error .otherErr => (.exc .otherErr, false)
  | .ok raw => (.ret (some (collect_vids (raw.map rstrip))), false)

/-- C10: when opening the source raises `IOError`, the function prints the
skip warning and returns `None` — not an empty list; for a readable file
it returns a list (of the validated ids of the stripped lines) with no
warning; an open failure of any other kind does not take the skip path but
propagates. -/
theorem extract_vid_from_file_skip
    (fs : String → Except OpenErr (List String)) (f : String) :
    (fs f = .error .ioError →
      extract_vid_from_file fs f = (.ret none, true) ∧
      ∀ l : List String, (.ret none : PyOutcome (Option (List String)) OpenErr)
        ≠ .ret (some l)) ∧
    (∀ raw, fs f = .ok raw →
      extract_vid_from_file fs f =
        (.ret (some (collect_vids (raw.map rstrip))), false)) ∧
    (fs f = .error .otherErr →
      extract_vid_from_file fs f = (.exc .otherErr, false)) := by
  refine ⟨fun h => ⟨?_, fun l hl => by cases hl⟩, fun raw h => ?_, fun h => ?_⟩
  · simp [extract_vid_from_file, h]
  · simp [extract_vid_from_file, h]
  · simp [extract_vid_from_file, h]

/-- An unreadable file, a readable two-line file, and a file whose open
fails with a non-IOError kind. -/
def fsW : String → Except OpenErr (List String) :=
  fun f =>
    if f = "bad" then .error .ioError
    else if f = "worse" then .error .otherErr
    else .ok ["dQw4w9WgXcQ \n", "nonsense"]

/-- Witness for C10 on all three kinds of sources. -/
theorem extract_vid_from_file_skip_witness :
    extract_vid_from_file fsW ("bad") = (.ret none, true) ∧
    extract_vid_from_file fsW ("ok") = (.ret (some ["dQw4w9WgXcQ"]), false) ∧
    extract_vid_from_file fsW ("worse") = (.exc .otherErr, false) :=
  ⟨((extract_vid_from_file_skip fsW ("bad")).1 rfl).1,
    by
      have h := (extract_vid_from_file_skip fsW ("ok")).2.1
        ["dQw4w9WgXcQ \n", "nonsense"] rfl
      rw [h]
      decide,
    (extract_vid_from_file_skip fsW ("worse")).2.2 rfl⟩

end YoutubeUpload
